import Mathlib

/-!
Verification of the pocketmags original-quality download pipeline
(`pocketmagstopdf.py`): the last-page discovery loop and the in-place
PDF watermark/timestamp post-processor.

The Python code is shallowly embedded:
* a `bytearray` is a `List Nat` of byte values;
* `bytearray.find(needle, start, stop)`, slice reads `ba[a:b]` and slice
  assignments `ba[a:b] = v` are modelled with Python's index
  normalisation semantics (negative indices count from the end, bounds
  are clamped to `[0, len]`);
* the discovery `while` loop is a step function on an explicit state
  record, driven by a fuel-indexed runner;
* raised exceptions (RuntimeError, NameError, zlib / decode errors)
  make the modelled pipeline return `none`;
* `zlib.decompress` is an external capability, passed in as a function
  parameter of type `List Nat → Option (List Nat)`;
* `datetime.now().strftime` output is passed in as a byte-list
  parameter (`nowTs`).
-/

set_option autoImplicit false

namespace Pocketmags

/-! ### Python `bytearray` primitives -/

/-- Python index normalisation for slice bounds: a negative index counts
from the end of the sequence and the result is clamped to `[0, n]`. -/
def pyNormIdx (i : Int) (n : Nat) : Nat :=
  if i < 0 then (i + n).toNat else min i.toNat n

/-- Python slice read `ba[a:b]` (step 1). -/
def pySliceGet (ba : List Nat) (a b : Int) : List Nat :=
  (ba.take (pyNormIdx b ba.length)).drop (pyNormIdx a ba.length)

/-- Python slice assignment `ba[a:b] = v` (step 1): the (normalised)
range `[a, max a b)` is removed and `v` is inserted in its place. -/
def pySliceAssign (ba : List Nat) (a b : Int) (v : List Nat) : List Nat :=
  let aN := pyNormIdx a ba.length
  let bN := max aN (pyNormIdx b ba.length)
  ba.take aN ++ v ++ ba.drop bN

/-- Does `needle` occur in `hay` starting exactly at position `k`? -/
def matchesAt (hay needle : List Nat) (k : Nat) : Bool :=
  needle.isPrefixOf (hay.drop k)

/-- Scan positions `k, k+1, ...` for the first occurrence of `needle`
that ends at or before `stop`; `-1` when there is none. -/
def findFrom (hay needle : List Nat) (stop : Nat) : Nat → Nat → Int
  | 0, _ => -1
  | fuel + 1, k =>
    if k + needle.length ≤ stop then
      if matchesAt hay needle k then (k : Int)
      else findFrom hay needle stop fuel (k + 1)
    else -1

/-- Python `bytearray.find(needle, start, stop)`: the first index of an
occurrence of `needle` lying entirely inside the normalised window
`[start, stop)`, or `-1`. -/
def pyFind (hay needle : List Nat) (start stop : Int) : Int :=
  findFrom hay needle (pyNormIdx stop hay.length) (hay.length + 1)
    (pyNormIdx start hay.length)

/-- ASCII bytes of a string literal from the source. -/
def asciiBytes (s : String) : List Nat :=
  s.toList.map Char.toNat

/-- A byte is decodable by Python's `cp1252` codec unless it is one of
the five unassigned code points 0x81, 0x8D, 0x8F, 0x90, 0x9D. -/
def decodableByte (b : Nat) : Bool :=
  !(b == 129 || b == 141 || b == 143 || b == 144 || b == 157)

/-- ASCII digit test. -/
def isDigitByte (b : Nat) : Bool :=
  48 ≤ b && b ≤ 57

/-- Model of `int(bs.decode(encoding='cp1252'))` restricted to the plain
unsigned digit strings the pipeline works with: `none` when the bytes
fail to decode, are empty, or contain a non-digit. -/
def parsePyInt (bs : List Nat) : Option Int :=
  if bs.all decodableByte && !bs.isEmpty && bs.all isDigitByte then
    some (((bs.foldl (fun acc b => acc * 10 + (b - 48)) 0 : Nat)) : Int)
  else none

/-! ### The byte-anchor literals of the source -/

/-- `b'<</Type/Page/MediaBox'`, the content boundary marker. -/
def mediaBoxMarker : List Nat := asciiBytes "<</Type/Page/MediaBox"

/-- `b'<</Producer(iTextSharp'`, the producer metadata marker. -/
def producerMarker : List Nat := asciiBytes "<</Producer(iTextSharp"

/-- `b'endobj'`. -/
def endobjMarker : List Nat := asciiBytes "endobj"

/-- `b'CreationDate'`. -/
def creationDateTag : List Nat := asciiBytes "CreationDate"

/-- `b'ModDate'`. -/
def modDateTag : List Nat := asciiBytes "ModDate"

/-- `b'<</ca 0.35/CA 0.3>>'`, the watermark opacity directive. -/
def uuid_opacity_object_original_value : List Nat :=
  asciiBytes "<</ca 0.35/CA 0.3>>"

/-- `b'<</ca 0.00/CA 0.0>>'`, the `--uuid-hide` replacement. -/
def uuid_opacity_hide_value : List Nat := asciiBytes "<</ca 0.00/CA 0.0>>"

/-- `b'0000000000000000000'`, the `--uuid-destroy` replacement. -/
def uuid_opacity_destroy_value : List Nat := asciiBytes "0000000000000000000"

/-- `b'<</Length'`, the compressed-stream length marker. -/
def lengthMarker : List Nat := asciiBytes "<</Length"

/-- `b'/Filter/FlateDecode'`. -/
def filterMarker : List Nat := asciiBytes "/Filter/FlateDecode"

/-- `b'>>stream\n'`. -/
def streamMarker : List Nat := asciiBytes ">>stream\n"

/-! ### Last-page discovery engine (source lines 377-418) -/

/-- The mutable loop state of the discovery `while` loop:
`page_num`, `page_jump`, `last_good_page` (`-1` sentinel),
`last_bad_page` (`None` sentinel) and `bad_page_count`. -/
structure DiscState where
  page : Int
  jump : Int
  lastGood : Int
  lastBad : Option Int
  cnt : Nat
deriving Repr, DecidableEq

/-- State at loop entry: `page_num = range_from - 1`, `page_jump = 20`,
`last_good_page = -1`, `last_bad_page = None`, `bad_page_count = 0`. -/
def initState (start : Int) : DiscState :=
  { page := start, jump := 20, lastGood := -1, lastBad := none, cnt := 0 }

/-- `bad_page_limit = page_jump` (the initial jump, 20). -/
def bad_page_limit : Nat := 20

/-- Result of one iteration of the discovery loop. -/
inductive StepRes where
  | next (s : DiscState)
  | done (lastGood : Int)
  | exhausted (lastGood : Int)
  | unexpected (code : Int)
deriving Repr, DecidableEq

/-- One iteration of the discovery loop.  `oracle` maps a page index to
the HTTP status code of the probe.  On 200 the current page becomes
`last_good_page` and the loop stops when it is exactly one below
`last_bad_page`; on 404 the jump halves (floored at 1), the page steps
back (clamped at 0) and the loop raises once `bad_page_count` reaches
`bad_page_limit`; any other status raises immediately. -/
def discStep (oracle : Int → Int) (s : DiscState) : StepRes :=
  let code := oracle s.page
  if code = 200 then
    if s.lastBad = some (s.page + 1) then .done s.page
    else .next { s with lastGood := s.page, page := s.page + s.jump }
  else if code = 404 then
    let cnt' := s.cnt + 1
    let jump' := if s.jump / 2 < 1 then 1 else s.jump / 2
    let page' := if s.page - jump' < 0 then 0 else s.page - jump'
    if cnt' = bad_page_limit then .exhausted s.lastGood
    else .next { page := page', jump := jump', lastGood := s.lastGood,
                 lastBad := some s.page, cnt := cnt' }
  else .unexpected code

/-- Terminal outcome of the discovery loop. -/
inductive DiscOutcome where
  | done (lastGood : Int)
  | exhausted (lastGood : Int)
  | unexpected (code : Int)
  | fuelOut
deriving Repr, DecidableEq

/-- Run the discovery loop for at most `fuel` probes. -/
def runD (fuel : Nat) (oracle : Int → Int) (s : DiscState) : DiscOutcome :=
  match fuel with
  | 0 => .fuelOut
  | f + 1 =>
    match discStep oracle s with
    | .next s' => runD f oracle s'
    | .done lg => .done lg
    | .exhausted lg => .exhausted lg
    | .unexpected c => .unexpected c

/-- The list of page indices probed by the loop (one per iteration,
including the final one). -/
def probesD (fuel : Nat) (oracle : Int → Int) (s : DiscState) : List Int :=
  match fuel with
  | 0 => []
  | f + 1 =>
    s.page ::
      (match discStep oracle s with
       | .next s' => probesD f oracle s'
       | _ => [])

/-! ### Document post-processor (source lines 450-702) -/

/-- The option flags and external capabilities of the post-processor:
`--uuid-hide`, `--uuid-destroy`, `--timestamp-change`, the bytes
produced by `datetime.now().strftime('%Y%m%d%H%M%S')`, and
`zlib.decompress` (an external capability; `none` models a raised
`zlib.error`). -/
structure EditCfg where
  hide : Bool
  destroy : Bool
  tsChange : Bool
  nowTs : List Nat
  decompress : List Nat → Option (List Nat)

/-- A record of one in-place write: normalised start offset and the
number of bytes written. -/
abbrev Span := Nat × Nat

/-- `start_of_magazine_content_location`: offset of the first MediaBox
object, searched over the whole buffer (line 460). -/
def mbOf (buf : List Nat) : Int :=
  pyFind buf mediaBoxMarker 0 (buf.length : Int)

/-- `itextsharp_object_location` (line 469): the producer marker,
searched in `[0, start_of_magazine_content_location)`. -/
def itcOf (buf : List Nat) : Int :=
  pyFind buf producerMarker 0 (mbOf buf)

/-- `itextsharp_object_end_location` (lines 470, 478): `-1` unless the
producer object was found, then the next `endobj` after it. -/
def itcEndOf (buf : List Nat) : Int :=
  if itcOf buf = -1 then -1
  else pyFind buf endobjMarker (itcOf buf) (buf.length : Int)

/-- `itextsharp_object_creationdate_property_location`
(lines 471, 483-485). -/
def cLocOf (buf : List Nat) : Int :=
  if itcOf buf = -1 then -1
  else pyFind buf creationDateTag (itcOf buf) (mbOf buf)

/-- `itextsharp_object_moddate_property_location` (lines 472, 493-494). -/
def mLocOf (buf : List Nat) : Int :=
  if itcOf buf = -1 then -1
  else pyFind buf modDateTag (itcOf buf) (mbOf buf)

/-- `timestamp_length = 14` (line 505). -/
def timestamp_length : Int := 14

/-- `creationdate_date_offset_from_property_tag = 15` (line 506). -/
def creationdate_date_offset_from_property_tag : Int := 15

/-- `moddate_date_offset_from_property_tag = 10` (line 507). -/
def moddate_date_offset_from_property_tag : Int := 10

/-- Timestamp stage (lines 508-526).  The original 14-byte values are
read and cp1252-decoded unconditionally (a decode error raises, hence
`none`); when `--timestamp-change` is set the two replacement values
are written in place at fixed offsets past the located property tags,
whether or not those tags were actually found (`-1` sentinel). -/
def tsStage (cfg : EditCfg) (cLoc mLoc : Int) (buf : List Nat) :
    Option (List Nat × List Span) :=
  let cOrig := pySliceGet buf (cLoc + creationdate_date_offset_from_property_tag)
    (cLoc + creationdate_date_offset_from_property_tag + timestamp_length)
  let mOrig := pySliceGet buf (mLoc + moddate_date_offset_from_property_tag)
    (mLoc + moddate_date_offset_from_property_tag + timestamp_length)
  if cOrig.all decodableByte && mOrig.all decodableByte then
    if cfg.tsChange then
      let a1 := cLoc + creationdate_date_offset_from_property_tag
      let b1 := pySliceAssign buf a1 (a1 + (cfg.nowTs.length : Int)) cfg.nowTs
      let sp1 : Span := (pyNormIdx a1 buf.length, cfg.nowTs.length)
      let a2 := mLoc + moddate_date_offset_from_property_tag
      let b2 := pySliceAssign b1 a2 (a2 + (cfg.nowTs.length : Int)) cfg.nowTs
      let sp2 : Span := (pyNormIdx a2 b1.length, cfg.nowTs.length)
      some (b2, [sp1, sp2])
    else some (buf, [])
  else none

/-- Collect successive `find` results: each search starts one byte past
the previous hit, bounded above by `stop` (the MediaBox offset
variable), exactly as the `while` loops of lines 556-563 and 620-631. -/
def collectLocs (hay needle : List Nat) (stop : Int) :
    Nat → Int → List Int
  | 0, _ => []
  | fuel + 1, fromPos =>
    let k := pyFind hay needle fromPos stop
    if k = -1 then []
    else k :: collectLocs hay needle stop fuel (k + 1)

/-- `uuid_opacity_object_location_list` (lines 551-563), computed on the
buffer as it stands after the timestamp stage. -/
def opacityLocsOf (mb : Int) (ba : List Nat) : List Int :=
  collectLocs ba uuid_opacity_object_original_value mb (ba.length + 1) 0

/-- The opacity rewrite loop body (lines 602-604): write `repl` over
each located directive, recording the spans. -/
def opacityLoop (repl : List Nat) : List Int → List Nat → List Nat × List Span
  | [], ba => (ba, [])
  | loc :: rest, ba =>
    let res := opacityLoop repl rest
      (pySliceAssign ba loc (loc + (repl.length : Int)) repl)
    (res.1, (pyNormIdx loc ba.length, repl.length) :: res.2)

/-- `uuid_opacity_object_replacement_value` (lines 598-601): assigned
only under `--uuid-hide` or `--uuid-destroy`, destroy winning when both
are set; unbound (`none`) otherwise. -/
def opacityRepl (cfg : EditCfg) : Option (List Nat) :=
  if cfg.destroy then some uuid_opacity_destroy_value
  else if cfg.hide then some uuid_opacity_hide_value
  else none

/-- Opacity stage (lines 551-609).  If the replacement name is unbound
and the loop body runs at least once, Python raises `NameError`
(`none`). -/
def opacityStage (cfg : EditCfg) (mb : Int) (ba : List Nat) :
    Option (List Nat × List Span) :=
  let locs := opacityLocsOf mb ba
  match opacityRepl cfg with
  | some repl => some (opacityLoop repl locs ba)
  | none => if locs.isEmpty then some (ba, []) else none

/-- The interleaved placement/text location lists (lines 615-631): all
`<</Length` hits after `itextsharp_object_location`, within the
preamble; even-indexed hits are placement objects, odd-indexed text.
The loop variable starts at `itextsharp_object_location`, so when the
producer object was never found (`-1`) the `while` condition fails at
entry and no stream is collected. -/
def flateLocsOf (mb itc : Int) (ba : List Nat) : List Int :=
  if itc = -1 then []
  else collectLocs ba lengthMarker mb (ba.length + 1) (itc + 1)

/-- Even-indexed elements of a list. -/
def evenIdxElems : List Int → List Int
  | [] => []
  | [a] => [a]
  | a :: _ :: rest => a :: evenIdxElems rest

/-- Odd-indexed elements of a list. -/
def oddIdxElems : List Int → List Int
  | [] => []
  | [_] => []
  | _ :: b :: rest => b :: oddIdxElems rest

/-- One pass of the flate-stream loop body (lines 654-692) for one
located `<</Length` offset: parse the declared length, extract the
compressed payload, decompress it (a failure raises), and under
`--uuid-destroy` overwrite the payload span with as many ASCII `'0'`
bytes as the extracted payload has. -/
def processFlateOne (cfg : EditCfg) (ba : List Nat) (off : Int) :
    Option (List Nat × Option Span) :=
  let lenStart : Int := off + 10
  let filterPos := pyFind ba filterMarker lenStart (ba.length : Int)
  let lenEnd := filterPos - 1
  let lenBytes := pySliceGet ba lenStart (lenEnd + 1)
  match parsePyInt lenBytes with
  | none => none
  | some l =>
    let streamStart := pyFind ba streamMarker off (ba.length : Int) + 9
    let streamEnd := streamStart + l - 1
    let content := pySliceGet ba streamStart (streamEnd + 1)
    match cfg.decompress content with
    | none => none
    | some _ =>
      if cfg.destroy then
        some (pySliceAssign ba streamStart (streamEnd + 1)
                (List.replicate content.length 48),
              some (pyNormIdx streamStart ba.length, content.length))
      else some (ba, none)

/-- Fold `processFlateOne` over the located offsets, reading each stream
from the buffer as mutated so far. -/
def flateLoop (cfg : EditCfg) : List Int → List Nat →
    Option (List Nat × List Span)
  | [], ba => some (ba, [])
  | off :: rest, ba =>
    match processFlateOne cfg ba off with
    | none => none
    | some pr =>
      match flateLoop cfg rest pr.1 with
      | none => none
      | some res =>
        some (res.1, pr.2.toList ++ res.2)

/-- Flate stage (lines 611-692): locate the placement/text streams and
process them in placement-then-text order. -/
def flateStage (cfg : EditCfg) (mb itc : Int) (ba : List Nat) :
    Option (List Nat × List Span) :=
  let locs := flateLocsOf mb itc ba
  flateLoop cfg (evenIdxElems locs ++ oddIdxElems locs) ba

/-- The whole post-processor on the downloaded buffer: anchor discovery
on the pristine buffer, then the three edit stages in source order,
returning the edited buffer and the list of all written spans, or
`none` when the Python code would raise. -/
def postProcessSpans (cfg : EditCfg) (buf : List Nat) :
    Option (List Nat × List Span) :=
  (tsStage cfg (cLocOf buf) (mLocOf buf) buf).bind (fun pr1 =>
    (opacityStage cfg (mbOf buf) pr1.1).bind (fun pr2 =>
      (flateStage cfg (mbOf buf) (itcOf buf) pr2.1).map (fun pr3 =>
        (pr3.1, pr1.2 ++ pr2.2 ++ pr3.2))))

/-- The post-processor, buffer only. -/
def postProcess (cfg : EditCfg) (buf : List Nat) : Option (List Nat) :=
  (postProcessSpans cfg buf).map Prod.fst

/-! ### Render request builder and the original-quality flow -/

/-- `number_of_pages = range_to - range_from` (line 453). -/
def number_of_pages (rf rt : Int) : Int := rt - rf

/-- The page indices placed in the bulk render request (lines 432-436):
`range(range_from - 1, range_to)`. -/
def requestedPages (rf rt : Int) : List Int :=
  (List.range (rt - (rf - 1)).toNat).map (fun i : Nat => rf - 1 + (i : Int))

/-- The original-quality flow up to the artifact write (lines 228-234,
244-246, 377-448, 699-702): validation, discovery, the bulk render
response check and post-processing, in source order.  `some b` means
the artifact writer is invoked with buffer `b`; `none` means a fatal
path aborted first. -/
def originalFlow (rf rt delay : Int) (fuel : Nat) (oracle : Int → Int)
    (renderStatus : Int) (renderContent : List Nat) (cfg : EditCfg) :
    Option (List Nat) :=
  if rf < 1 ∨ rt < 1 then none
  else if rf > rt then none
  else if delay < 0 then none
  else
    match runD fuel oracle (initState (rf - 1)) with
    | .done _ =>
      if renderStatus = 200 then postProcess cfg renderContent else none
    | _ => none

/-! ### Concrete fixtures used by witnesses and counterexamples -/

/-- Oracle for the spec's synthetic scenario: pages 0..41 exist,
42 and above do not. -/
def oracle41 : Int → Int := fun i => if i ≤ 41 then 200 else 404

/-- Oracle where every probe misses. -/
def oracleAll404 : Int → Int := fun _ => 404

/-- A concrete 14-digit `YYYYmmddHHMMSS` timestamp. -/
def ts20260101 : List Nat := asciiBytes "20260101000000"

/-- A decompressor that always fails (never reached in the fixtures
that use it). -/
def noDecompress : List Nat → Option (List Nat) := fun _ => none

/-- A decompressor that always yields a 12-byte payload. -/
def decompress12 : List Nat → Option (List Nat) :=
  fun _ => some (List.replicate 12 0)

/-- Options: only `--timestamp-change`. -/
def cfgTsOnly : EditCfg :=
  { hide := false, destroy := false, tsChange := true,
    nowTs := ts20260101, decompress := noDecompress }

/-- Options: none of hide / destroy / timestamp-change. -/
def cfgNoFlags : EditCfg :=
  { hide := false, destroy := false, tsChange := false,
    nowTs := ts20260101, decompress := noDecompress }

/-- Options: only `--uuid-hide`. -/
def cfgHideOnly : EditCfg :=
  { hide := true, destroy := false, tsChange := false,
    nowTs := ts20260101, decompress := noDecompress }

/-- Options: only `--uuid-destroy`, with the 12-byte decompressor. -/
def cfgDestroy12 : EditCfg :=
  { hide := false, destroy := true, tsChange := false,
    nowTs := ts20260101, decompress := decompress12 }

/-- Forty `'A'` bytes: no anchor of any kind occurs in it. -/
def bufAllA : List Nat := List.replicate 40 65

/-- The edited result of `bufAllA` under `cfgTsOnly`. -/
def bufAllAEdited : List Nat :=
  asciiBytes "AAAAAAAAA2026010100000000000AAAAAAAAAAAA"

/-- The opacity directive literal followed by one `'Z'` byte. -/
def bufOpacity : List Nat := uuid_opacity_object_original_value ++ [90]

/-- A minimal buffer holding the producer marker followed by one
complete flate-stream object whose declared length is 5 and whose
payload is `ABCDE`, followed by `'Z'`. -/
def bufFlate : List Nat :=
  asciiBytes "<</Producer(iTextSharp<</Length 5/Filter/FlateDecode>>stream\nABCDEZ"

/-- `bufFlate` with its 5-byte payload span zeroed. -/
def bufFlateZeroed : List Nat :=
  asciiBytes "<</Producer(iTextSharp<</Length 5/Filter/FlateDecode>>stream\n00000Z"

/-! ### Invariants used in the discovery-loop proofs -/

/-- The jump size as a function of the number of misses so far:
20 is halved (floored at 1) once per miss. -/
def jumpOf : Nat → Int
  | 0 => 20
  | 1 => 10
  | 2 => 5
  | 3 => 2
  | _ => 1

/-- The possible distances `page - last_good_page` as a function of the
miss count, once a good page has been recorded. -/
def dOk : Nat → Int → Prop
  | 0, d => d = 20
  | 1, d => d = 10
  | 2, d => d = 5
  | 3, d => d = 2 ∨ d = 3
  | 4, d => d = 1 ∨ d = 2
  | 5, d => d = 0 ∨ d = 1
  | 6, d => d = 0
  | _, _ => False

/-- Inductive invariant of the discovery loop. -/
def discInv (oracle : Int → Int) (s : DiscState) : Prop :=
  s.jump = jumpOf s.cnt ∧ 0 ≤ s.page ∧ s.cnt < bad_page_limit ∧
  (s.lastGood = -1 →
    4 ≤ s.cnt →
      s.lastBad = some (s.page + 1) ∨
      (s.page = 0 ∧ s.lastBad = some 0 ∧ oracle 0 = 404)) ∧
  (s.lastGood ≠ -1 →
    0 ≤ s.lastGood ∧ oracle s.lastGood = 200 ∧
    dOk s.cnt (s.page - s.lastGood) ∧
    (s.page = s.lastGood → s.lastBad = some (s.lastGood + 1)))

/-- Indices `i` outside every recorded span. -/
def outsideSpans (spans : List Span) (i : Nat) : Prop :=
  ∀ sp ∈ spans, i < sp.1 ∨ sp.1 + sp.2 ≤ i

/-- The amended hypothesis of the length-preservation claim: both
timestamp property tags were actually located and the 14-byte value
spans they imply lie inside the buffer. -/
def TsAnchorsOk (cfg : EditCfg) (buf : List Nat) : Prop :=
  cLocOf buf ≠ -1 ∧ mLocOf buf ≠ -1 ∧
  cLocOf buf + creationdate_date_offset_from_property_tag
    + (cfg.nowTs.length : Int) ≤ (buf.length : Int) ∧
  mLocOf buf + moddate_date_offset_from_property_tag
    + (cfg.nowTs.length : Int) ≤ (buf.length : Int)

/-! ### C5, C7: direct computations -/

/-- C5: with the oracle in which probes of indices 0 through 41 return
status 200 and indices 42 and above return 404, the discovery loop
started at index 0 terminates normally with `last_good_page = 41`. -/
theorem C5_discovery_finds_41 :
    runD 15 oracle41 (initState 0) = .done 41 := by decide

/-- C7 counterexample: the opacity-directive anchor literal searched
for by the locator is not 20 bytes long. -/
theorem C7_counterexample :
    uuid_opacity_object_original_value.length ≠ 20 := by decide

/-- C7 (amended): the opacity-directive anchor literal is 19 bytes
long, and both replacement forms (`--uuid-hide` and `--uuid-destroy`)
have exactly the same byte length as the anchor literal. -/
theorem C7_literal_lengths :
    uuid_opacity_object_original_value.length = 19 ∧
    uuid_opacity_hide_value.length = uuid_opacity_object_original_value.length ∧
    uuid_opacity_destroy_value.length = uuid_opacity_object_original_value.length := by
  decide

/-! ### C1 counterexample, C4, C3 counterexample: concrete runs -/

/-- C1 counterexample: on an empty fetched buffer with only the
timestamp-rewrite option enabled, the post-processor completes and
returns a 23-byte buffer, so the total byte length is not preserved. -/
theorem C1_counterexample :
    postProcess cfgTsOnly [] = some (asciiBytes "202601010" ++ ts20260101) ∧
    (asciiBytes "202601010" ++ ts20260101).length ≠ ([] : List Nat).length := by
  decide

/-- C4: on a 40-byte buffer containing no producer object and no
timestamp property tags (so all anchor locations hold the `-1`
sentinel), enabling the timestamp-rewrite option still modifies the
buffer: both 14-byte replacement values are written at the fixed
offsets computed from the `-1` sentinel (bytes 9..27 change), instead
of the dependent edits being skipped. -/
theorem C4_missing_anchor_still_writes :
    cLocOf bufAllA = -1 ∧ mLocOf bufAllA = -1 ∧
    postProcess cfgTsOnly bufAllA = some bufAllAEdited ∧
    bufAllAEdited ≠ bufAllA := by decide

/-- C3 counterexample: in destroy mode, on a stream whose compressed
payload span holds 5 bytes while the decompressor reports a true
payload of 12 bytes, the neutralizer writes exactly 5 ASCII `'0'`
bytes (the compressed span length), not the 12 bytes implied by the
decompressed payload length. -/
theorem C3_counterexample :
    postProcess cfgDestroy12 bufFlate = some bufFlateZeroed ∧
    pySliceGet bufFlateZeroed 61 66 = List.replicate 5 48 ∧
    cfgDestroy12.decompress (pySliceGet bufFlate 61 66) =
      some (List.replicate 12 0) ∧
    (5 : Nat) ≠ 12 := by decide

/-! ### C10: unbound replacement value -/

/-- C10: if neither the hide option nor the destroy option is enabled
and the locator has found at least one opacity-directive occurrence,
the opacity rewrite loop references a replacement value that was never
assigned, so the run raises (modelled as `none`) and no output buffer
is produced. -/
theorem C10_unbound_replacement (cfg : EditCfg) (buf b1 : List Nat)
    (s1 : List Span)
    (hh : cfg.hide = false) (hd : cfg.destroy = false)
    (hts : tsStage cfg (cLocOf buf) (mLocOf buf) buf = some (b1, s1))
    (hlocs : opacityLocsOf (mbOf buf) b1 ≠ []) :
    postProcess cfg buf = none := by
  have hrepl : opacityRepl cfg = none := by
    unfold opacityRepl
    rw [hd, hh]
    simp
  have hop : opacityStage cfg (mbOf buf) b1 = none := by
    unfold opacityStage
    rw [hrepl]
    cases h : opacityLocsOf (mbOf buf) b1 with
    | nil => exact absurd h hlocs
    | cons a t => simp [List.isEmpty]
  unfold postProcess postProcessSpans
  rw [hts]
  simp only [Option.some_bind, hop, Option.none_bind, Option.map_none']

/-- C10 witness: a 20-byte buffer consisting of the opacity literal
followed by one extra byte, with no options enabled. -/
theorem C10_unbound_replacement_witness :
    opacityLocsOf (mbOf bufOpacity) bufOpacity ≠ [] ∧
    postProcess cfgNoFlags bufOpacity = none :=
  ⟨by decide,
   C10_unbound_replacement cfgNoFlags bufOpacity bufOpacity [] rfl rfl
     (by decide) (by decide)⟩

/-! ### C9: expected-page-count off-by-one -/

/-- C9: the expected page count used by the locator cross-check is
`range_to - range_from`, one less than the number of page indices
actually placed in the bulk render request, so whenever the locator
finds exactly one opacity directive per requested page the
count-mismatch warning condition `found != number_of_pages` holds. -/
theorem C9_expected_count_off_by_one (rf rt : Int)
    (h1 : 1 ≤ rf) (h2 : rf ≤ rt) :
    ((requestedPages rf rt).length : Int) = number_of_pages rf rt + 1 ∧
    ∀ found : Nat, (found : Int) = ((requestedPages rf rt).length : Int) →
      (found : Int) ≠ number_of_pages rf rt := by
  have hlen : ((requestedPages rf rt).length : Int) = rt - rf + 1 := by
    unfold requestedPages
    simp only [List.length_map, List.length_range]
    omega
  constructor
  · rw [hlen]; unfold number_of_pages; ring
  · intro found hf
    rw [hlen] at hf
    unfold number_of_pages
    omega

/-- C9 witness: a ten-page request (pages 1 to 10). -/
theorem C9_expected_count_off_by_one_witness :
    (1 : Int) ≤ 1 ∧ (1 : Int) ≤ 10 ∧
    ((requestedPages 1 10).length : Int) = number_of_pages 1 10 + 1 :=
  ⟨by decide, by decide, (C9_expected_count_off_by_one 1 10 (by decide) (by decide)).1⟩

/-! ### C6: fatal paths abort before the artifact writer -/

/-- C6: on every fatal path of the original-quality pipeline
(input-validation failure, discovery exhaustion or unexpected probe
status, non-200 bulk-render response, or an error raised during
post-processing) the artifact writer is never invoked (`originalFlow`
is `none`), and the only buffer ever written is the output of the
completed post-processor. -/
theorem C6_fatal_paths_do_not_write (rf rt delay : Int) (fuel : Nat)
    (oracle : Int → Int) (st : Int) (content : List Nat) (cfg : EditCfg) :
    ((rf < 1 ∨ rt < 1 ∨ rf > rt ∨ delay < 0) →
      originalFlow rf rt delay fuel oracle st content cfg = none) ∧
    (∀ lg, runD fuel oracle (initState (rf - 1)) = .exhausted lg →
      originalFlow rf rt delay fuel oracle st content cfg = none) ∧
    (∀ c, runD fuel oracle (initState (rf - 1)) = .unexpected c →
      originalFlow rf rt delay fuel oracle st content cfg = none) ∧
    (st ≠ 200 → originalFlow rf rt delay fuel oracle st content cfg = none) ∧
    (postProcess cfg content = none →
      originalFlow rf rt delay fuel oracle st content cfg = none) ∧
    (∀ b, originalFlow rf rt delay fuel oracle st content cfg = some b →
      postProcess cfg content = some b) := by
  have hinv : (rf < 1 ∨ rt < 1 ∨ rf > rt ∨ delay < 0) →
      originalFlow rf rt delay fuel oracle st content cfg = none := by
    intro hbad
    unfold originalFlow
    by_cases h1 : rf < 1 ∨ rt < 1
    · rw [if_pos h1]
    · rw [if_neg h1]
      by_cases h2 : rf > rt
      · rw [if_pos h2]
      · rw [if_neg h2]
        have h3 : delay < 0 := by omega
        rw [if_pos h3]
  have hval : ¬(rf < 1 ∨ rt < 1) → ¬rf > rt → ¬delay < 0 →
      originalFlow rf rt delay fuel oracle st content cfg =
        (match runD fuel oracle (initState (rf - 1)) with
         | .done _ =>
           if st = 200 then postProcess cfg content else none
         | _ => none) := by
    intro h1 h2 h3
    unfold originalFlow
    rw [if_neg h1, if_neg h2, if_neg h3]
  refine ⟨hinv, ?_, ?_, ?_, ?_, ?_⟩
  · intro lg hrun
    by_cases hv : rf < 1 ∨ rt < 1 ∨ rf > rt ∨ delay < 0
    · exact hinv hv
    · rw [hval (by omega) (by omega) (by omega), hrun]
  · intro c hrun
    by_cases hv : rf < 1 ∨ rt < 1 ∨ rf > rt ∨ delay < 0
    · exact hinv hv
    · rw [hval (by omega) (by omega) (by omega), hrun]
  · intro hst
    by_cases hv : rf < 1 ∨ rt < 1 ∨ rf > rt ∨ delay < 0
    · exact hinv hv
    · rw [hval (by omega) (by omega) (by omega)]
      cases hE : runD fuel oracle (initState (rf - 1)) with
      | done lg => exact if_neg hst
      | exhausted lg => rfl
      | unexpected c => rfl
      | fuelOut => rfl
  · intro hpp
    by_cases hv : rf < 1 ∨ rt < 1 ∨ rf > rt ∨ delay < 0
    · exact hinv hv
    · rw [hval (by omega) (by omega) (by omega)]
      cases hE : runD fuel oracle (initState (rf - 1)) with
      | done lg =>
        by_cases hst : st = 200
        · rw [if_pos hst]; exact hpp
        · exact if_neg hst
      | exhausted lg => rfl
      | unexpected c => rfl
      | fuelOut => rfl
  · intro b hb
    by_cases hv : rf < 1 ∨ rt < 1 ∨ rf > rt ∨ delay < 0
    · rw [hinv hv] at hb; exact Option.noConfusion hb
    · rw [hval (by omega) (by omega) (by omega)] at hb
      revert hb
      cases hE : runD fuel oracle (initState (rf - 1)) with
      | done lg =>
        intro hb
        have hb' : (if st = 200 then postProcess cfg content else none)
            = some b := hb
        by_cases hst : st = 200
        · rwa [if_pos hst] at hb'
        · rw [if_neg hst] at hb'; exact Option.noConfusion hb'
      | exhausted lg =>
        intro hb
        exact Option.noConfusion (show (none : Option (List Nat)) = some b from hb)
      | unexpected c =>
        intro hb
        exact Option.noConfusion (show (none : Option (List Nat)) = some b from hb)
      | fuelOut =>
        intro hb
        exact Option.noConfusion (show (none : Option (List Nat)) = some b from hb)

/-- C6 witness: an invalid range (`range_from = 0`) aborts before any
write. -/
theorem C6_fatal_paths_do_not_write_witness :
    ((0 : Int) < 1 ∨ (5 : Int) < 1 ∨ (0 : Int) > 5 ∨ (0 : Int) < 0) ∧
    originalFlow 0 5 0 3 oracleAll404 200 [] cfgNoFlags = none :=
  ⟨Or.inl (by decide),
   (C6_fatal_paths_do_not_write 0 5 0 3 oracleAll404 200 [] cfgNoFlags).1
     (Or.inl (by decide))⟩

/-! ### C8: no probe ever targets a negative index -/

/-- A discovery step that continues keeps the page index non-negative
and the jump at least 1. -/
lemma discStep_next_basic (oracle : Int → Int) (s s' : DiscState)
    (h : discStep oracle s = .next s') (hp : 0 ≤ s.page) (hj : 1 ≤ s.jump) :
    0 ≤ s'.page ∧ 1 ≤ s'.jump := by
  simp only [discStep] at h
  by_cases h200 : oracle s.page = 200
  · rw [if_pos h200] at h
    by_cases hlb : s.lastBad = some (s.page + 1)
    · rw [if_pos hlb] at h; exact StepRes.noConfusion h
    · rw [if_neg hlb] at h
      injection h with hs'
      rw [← hs']
      exact ⟨by show 0 ≤ s.page + s.jump; omega, by show 1 ≤ s.jump; omega⟩
  · rw [if_neg h200] at h
    by_cases h404 : oracle s.page = 404
    · rw [if_pos h404] at h
      by_cases hcnt : s.cnt + 1 = bad_page_limit
      · rw [if_pos hcnt] at h; exact StepRes.noConfusion h
      · rw [if_neg hcnt] at h
        injection h with hs'
        rw [← hs']
        constructor
        · show (0 : Int) ≤ if s.page - _ < 0 then 0 else s.page - _
          split <;> omega
        · show (1 : Int) ≤ if s.jump / 2 < 1 then 1 else s.jump / 2
          split <;> omega
    · rw [if_neg h404] at h; exact StepRes.noConfusion h

/-- All indices probed from a state with non-negative page and positive
jump are non-negative. -/
lemma probesD_nonneg (oracle : Int → Int) :
    ∀ (fuel : Nat) (s : DiscState), 0 ≤ s.page → 1 ≤ s.jump →
      ∀ p ∈ probesD fuel oracle s, 0 ≤ p := by
  intro fuel
  induction fuel with
  | zero => intro s _ _ p hp; simp [probesD] at hp
  | succ f ih =>
    intro s hp hj p hmem
    unfold probesD at hmem
    rcases List.mem_cons.mp hmem with h | h
    · rw [h]; exact hp
    · cases hE : discStep oracle s with
      | next s' =>
        simp only [hE] at h
        have hb := discStep_next_basic oracle s s' hE hp hj
        exact ih s' hb.1 hb.2 p h
      | done lg => simp only [hE, List.not_mem_nil] at h
      | exhausted lg => simp only [hE, List.not_mem_nil] at h
      | unexpected c => simp only [hE, List.not_mem_nil] at h

/-- C8: for every page-existence oracle and every valid page range
(`range_from >= 1`), every probe issued by the discovery loop targets a
page index greater than or equal to zero: the index starts at
`range_from - 1` and the backward step after a miss is clamped at 0. -/
theorem C8_probes_nonnegative (rf : Int) (fuel : Nat) (oracle : Int → Int)
    (h : 1 ≤ rf) :
    ∀ p ∈ probesD fuel oracle (initState (rf - 1)), 0 ≤ p :=
  probesD_nonneg oracle fuel (initState (rf - 1))
    (by show (0 : Int) ≤ rf - 1; omega)
    (by show (1 : Int) ≤ 20; omega)

/-- C8 witness: `range_from = 1` with the all-missing oracle; the first
probe targets index 0 and is non-negative. -/
theorem C8_probes_nonnegative_witness :
    (1 : Int) ≤ 1 ∧ (0 : Int) ∈ probesD 3 oracleAll404 (initState (1 - 1)) ∧
    (0 : Int) ≤ 0 :=
  ⟨by decide, by decide,
   C8_probes_nonnegative 1 3 oracleAll404 (by decide) 0 (by decide)⟩

/-! ### C2: exhaustion implies no good page was ever found -/

/-- The jump is always at least 1. -/
lemma jumpOf_pos : ∀ c : Nat, 1 ≤ jumpOf c
  | 0 => by decide
  | 1 => by decide
  | 2 => by decide
  | 3 => by decide
  | _ + 4 => by show (1 : Int) ≤ 1; decide

/-- Halving with floor 1 maps `jumpOf c` to `jumpOf (c + 1)`. -/
lemma jumpOf_halve : ∀ c : Nat,
    (if jumpOf c / 2 < 1 then 1 else jumpOf c / 2) = jumpOf (c + 1)
  | 0 => by decide
  | 1 => by decide
  | 2 => by decide
  | 3 => by decide
  | _ + 4 => by show (if (1 : Int) / 2 < 1 then 1 else (1 : Int) / 2) = 1; decide

/-- From the fourth miss on, the jump is exactly 1. -/
lemma jumpOf_ge4 : ∀ c : Nat, 4 ≤ c → jumpOf c = 1 := by
  intro c h
  match c, h with
  | _ + 4, _ => rfl

/-- The distance invariant is only satisfiable for at most six misses. -/
lemma dOk_le6 : ∀ (c : Nat) (d : Int), dOk c d → c ≤ 6 := by
  intro c d h
  match c with
  | 0 | 1 | 2 | 3 | 4 | 5 | 6 => omega
  | n + 7 => exact h.elim

/-- One step of the discovery loop preserves the invariant, and an
exhaustion raise can only report the `-1` sentinel. -/
lemma discInv_step (oracle : Int → Int) (s : DiscState)
    (hinv : discInv oracle s) :
    (∀ s', discStep oracle s = .next s' → discInv oracle s') ∧
    (∀ lg, discStep oracle s = .exhausted lg → lg = -1) := by
  obtain ⟨pg, jp, lg0, lb, c⟩ := s
  obtain ⟨hj, hp, hc, hng, hg⟩ := hinv
  simp only at hj hp hc hng hg
  constructor
  · intro s' hstep
    simp only [discStep] at hstep
    by_cases h200 : oracle pg = 200
    · rw [if_pos h200] at hstep
      by_cases hlb : lb = some (pg + 1)
      · rw [if_pos hlb] at hstep; exact StepRes.noConfusion hstep
      · rw [if_neg hlb] at hstep
        injection hstep with hs'
        rw [← hs']
        have hjpos := jumpOf_pos c
        refine ⟨hj, by show 0 ≤ pg + jp; omega, hc, ?_, ?_⟩
        · intro habs
          exact absurd habs (by show ¬pg = -1; omega)
        · intro _
          refine ⟨hp, h200, ?_, ?_⟩
          · show dOk c (pg + jp - pg)
            have hrw : pg + jp - pg = jumpOf c := by omega
            rw [hrw]
            by_cases hgood : lg0 = -1
            · rcases Nat.lt_or_ge c 4 with h4 | h4
              · interval_cases c
                · exact rfl
                · exact rfl
                · exact rfl
                · exact Or.inl rfl
              · exfalso
                rcases hng hgood h4 with hcase | ⟨hp0, hlb0, ho0⟩
                · exact hlb hcase
                · rw [hp0] at h200
                  rw [h200] at ho0
                  exact absurd ho0 (by decide)
            · obtain ⟨hg0, hgor, hdok, hglb⟩ := hg hgood
              have h6 := dOk_le6 c _ hdok
              interval_cases c
              · exact rfl
              · exact rfl
              · exact rfl
              · exact Or.inl rfl
              · exact Or.inl rfl
              · exact Or.inr rfl
              · -- c = 6: the distance is 0, so the loop would have
                -- terminated instead of probing again
                exfalso
                have hd0 : pg - lg0 = 0 := hdok
                have hpe : pg = lg0 := by omega
                have := hglb hpe
                rw [← hpe] at this
                exact hlb this
          · intro habs
            exact absurd habs (by show ¬pg + jp = pg; omega)
    · rw [if_neg h200] at hstep
      by_cases h404 : oracle pg = 404
      · rw [if_pos h404] at hstep
        by_cases hcnt : c + 1 = bad_page_limit
        · rw [if_pos hcnt] at hstep; exact StepRes.noConfusion hstep
        · rw [if_neg hcnt] at hstep
          injection hstep with hs'
          rw [← hs']
          have hlimit : bad_page_limit = 20 := rfl
          have hjump' : (if jp / 2 < 1 then 1 else jp / 2) = jumpOf (c + 1) := by
            rw [hj]; exact jumpOf_halve c
          refine ⟨hjump', ?_, ?_, ?_, ?_⟩
          · show (0 : Int) ≤ if pg - _ < 0 then 0 else pg - _
            split <;> omega
          · show c + 1 < bad_page_limit
            omega
          · -- the no-good-page branch of the invariant
            intro hgood h4
            simp only
            have hX : (if jp / 2 < 1 then 1 else jp / 2) = 1 := by
              rw [hjump']; exact jumpOf_ge4 _ h4
            rw [hX]
            by_cases hzero : pg = 0
            · refine Or.inr ⟨?_, ?_, ?_⟩
              · rw [hzero]; decide
              · rw [hzero]
              · rw [← hzero]; exact h404
            · refine Or.inl ?_
              rw [if_neg (by omega : ¬pg - 1 < 0)]
              have : pg - 1 + 1 = pg := by omega
              rw [this]
          · -- the good-page-recorded branch of the invariant
            intro hgood
            obtain ⟨hg0, hgor, hdok, hglb⟩ := hg hgood
            have hne : pg ≠ lg0 := by
              intro heq
              rw [heq, hgor] at h404
              exact absurd h404 (by decide)
            have h6 := dOk_le6 c _ hdok
            refine ⟨hg0, hgor, ?_, ?_⟩
            · show dOk (c + 1)
                ((if pg - (if jp / 2 < 1 then 1 else jp / 2) < 0 then 0
                  else pg - (if jp / 2 < 1 then 1 else jp / 2)) - lg0)
              rw [hjump']
              interval_cases c
              · have hd : pg - lg0 = 20 := hdok
                rw [if_neg (by show ¬pg - jumpOf 1 < 0; show ¬pg - 10 < 0; omega)]
                show pg - jumpOf 1 - lg0 = 10
                show pg - 10 - lg0 = 10
                omega
              · have hd : pg - lg0 = 10 := hdok
                rw [if_neg (by show ¬pg - jumpOf 2 < 0; show ¬pg - 5 < 0; omega)]
                show pg - 5 - lg0 = 5
                omega
              · have hd : pg - lg0 = 5 := hdok
                rw [if_neg (by show ¬pg - jumpOf 3 < 0; show ¬pg - 2 < 0; omega)]
                show pg - 2 - lg0 = 2 ∨ pg - 2 - lg0 = 3
                omega
              · have hd : pg - lg0 = 2 ∨ pg - lg0 = 3 := hdok
                rw [if_neg (by show ¬pg - jumpOf 4 < 0; show ¬pg - 1 < 0; omega)]
                show pg - 1 - lg0 = 1 ∨ pg - 1 - lg0 = 2
                omega
              · have hd : pg - lg0 = 1 ∨ pg - lg0 = 2 := hdok
                rw [if_neg (by show ¬pg - jumpOf 5 < 0; show ¬pg - 1 < 0; omega)]
                show pg - 1 - lg0 = 0 ∨ pg - 1 - lg0 = 1
                omega
              · have hd : pg - lg0 = 0 ∨ pg - lg0 = 1 := hdok
                rw [if_neg (by show ¬pg - jumpOf 6 < 0; show ¬pg - 1 < 0; omega)]
                show pg - 1 - lg0 = 0
                omega
              · have hd : pg - lg0 = 0 := hdok
                exact absurd hd (by omega)
            · -- if the next page equals the good page, the previous miss
              -- was exactly one above it
              intro hpg
              simp only at hpg
              rw [hjump'] at hpg
              have hxx : pg = lg0 + 1 := by
                have hj1 := jumpOf_pos (c + 1)
                by_cases hclamp : pg - jumpOf (c + 1) < 0
                · rw [if_pos hclamp] at hpg
                  -- clamped to 0, so the good page is 0 and pg < jump
                  interval_cases c
                  · have hd : pg - lg0 = 20 := hdok
                    exact absurd hclamp (by show ¬pg - jumpOf 1 < 0; show ¬pg - 10 < 0; omega)
                  · have hd : pg - lg0 = 10 := hdok
                    exact absurd hclamp (by show ¬pg - jumpOf 2 < 0; show ¬pg - 5 < 0; omega)
                  · have hd : pg - lg0 = 5 := hdok
                    exact absurd hclamp (by show ¬pg - jumpOf 3 < 0; show ¬pg - 2 < 0; omega)
                  · have hd : pg - lg0 = 2 ∨ pg - lg0 = 3 := hdok
                    exact absurd hclamp (by show ¬pg - jumpOf 4 < 0; show ¬pg - 1 < 0; omega)
                  · have hd : pg - lg0 = 1 ∨ pg - lg0 = 2 := hdok
                    exact absurd hclamp (by show ¬pg - jumpOf 5 < 0; show ¬pg - 1 < 0; omega)
                  · have hd : pg - lg0 = 0 ∨ pg - lg0 = 1 := hdok
                    exact absurd hclamp (by show ¬pg - jumpOf 6 < 0; show ¬pg - 1 < 0; omega)
                  · have hd : pg - lg0 = 0 := hdok
                    exact absurd hd (by omega)
                · rw [if_neg hclamp] at hpg
                  -- pg - jumpOf (c+1) = lg0
                  interval_cases c
                  · have hd : pg - lg0 = 20 := hdok
                    have : pg - jumpOf 1 = lg0 := hpg
                    have h10 : pg - 10 = lg0 := this
                    omega
                  · have hd : pg - lg0 = 10 := hdok
                    have h5 : pg - 5 = lg0 := hpg
                    omega
                  · have hd : pg - lg0 = 5 := hdok
                    have h2 : pg - 2 = lg0 := hpg
                    omega
                  · have hd : pg - lg0 = 2 ∨ pg - lg0 = 3 := hdok
                    have h1x : pg - 1 = lg0 := hpg
                    omega
                  · have hd : pg - lg0 = 1 ∨ pg - lg0 = 2 := hdok
                    have h1x : pg - 1 = lg0 := hpg
                    omega
                  · have hd : pg - lg0 = 0 ∨ pg - lg0 = 1 := hdok
                    have h1x : pg - 1 = lg0 := hpg
                    omega
                  · have hd : pg - lg0 = 0 := hdok
                    exact absurd hd (by omega)
              rw [hxx]
      · rw [if_neg h404] at hstep; exact StepRes.noConfusion hstep
  · intro lg hstep
    simp only [discStep] at hstep
    by_cases h200 : oracle pg = 200
    · rw [if_pos h200] at hstep
      split_ifs at hstep
    · rw [if_neg h200] at hstep
      by_cases h404 : oracle pg = 404
      · rw [if_pos h404] at hstep
        by_cases hcnt : c + 1 = bad_page_limit
        · rw [if_pos hcnt] at hstep
          injection hstep with hlg
          rw [← hlg]
          by_contra hne
          obtain ⟨_, _, hdok, _⟩ := hg hne
          have h6 := dOk_le6 c _ hdok
          have hlimit : bad_page_limit = 20 := rfl
          omega
        · rw [if_neg hcnt] at hstep; exact StepRes.noConfusion hstep
      · rw [if_neg h404] at hstep; exact StepRes.noConfusion hstep

/-- The runner preserves the invariant down to any exhaustion raise. -/
lemma discInv_run (oracle : Int → Int) :
    ∀ (fuel : Nat) (s : DiscState) (lg : Int), discInv oracle s →
      runD fuel oracle s = .exhausted lg → lg = -1 := by
  intro fuel
  induction fuel with
  | zero => intro s lg _ h; exact DiscOutcome.noConfusion h
  | succ f ih =>
    intro s lg hinv hrun
    cases hE : discStep oracle s with
    | next s' =>
      have hrun' : runD f oracle s' = .exhausted lg := by
        unfold runD at hrun
        rw [hE] at hrun
        exact hrun
      exact ih s' lg ((discInv_step oracle s hinv).1 s' hE) hrun'
    | done lg2 =>
      unfold runD at hrun
      rw [hE] at hrun
      exact DiscOutcome.noConfusion hrun
    | exhausted lg2 =>
      unfold runD at hrun
      rw [hE] at hrun
      injection hrun with h2
      rw [← h2]
      exact (discInv_step oracle s hinv).2 lg2 hE
    | unexpected c2 =>
      unfold runD at hrun
      rw [hE] at hrun
      exact DiscOutcome.noConfusion hrun

/-- C2: for every page-existence oracle and every valid start index, if
the discovery loop raises its exhaustion error (`bad_page_count`
reaching `bad_page_limit`), then `last_good_page` still holds the
`-1` sentinel: no probe ever returned 200. -/
theorem C2_exhaustion_without_good (oracle : Int → Int) (fuel : Nat)
    (start lg : Int) (hstart : 0 ≤ start)
    (hrun : runD fuel oracle (initState start) = .exhausted lg) :
    lg = -1 :=
  discInv_run oracle fuel (initState start) lg
    ⟨rfl, hstart, by show (0 : Nat) < bad_page_limit; decide,
     fun _ h4 => absurd h4 (by show ¬(4 : Nat) ≤ 0; decide),
     fun h => absurd rfl h⟩ hrun

/-- C2 witness: the all-missing oracle started at index 0 exhausts the
budget and reports the `-1` sentinel. -/
theorem C2_exhaustion_without_good_witness :
    (0 : Int) ≤ 0 ∧
    runD 25 oracleAll404 (initState 0) = .exhausted (-1) ∧
    (-1 : Int) = -1 :=
  ⟨by decide, by decide,
   C2_exhaustion_without_good oracleAll404 25 0 (-1) (by decide) (by decide)⟩

/-! ### Lemmas on the slice and find primitives -/

/-- Normalised indices never exceed the length. -/
lemma pyNormIdx_le (i : Int) (n : Nat) : pyNormIdx i n ≤ n := by
  unfold pyNormIdx
  split <;> omega

/-- A non-negative in-range index normalises to itself. -/
lemma pyNormIdx_eq (i : Int) (n : Nat) (h0 : 0 ≤ i) (h : i ≤ (n : Int)) :
    (pyNormIdx i n : Int) = i := by
  unfold pyNormIdx
  split <;> omega

/-- Length of a Python slice read. -/
lemma length_pySliceGet (ba : List Nat) (a b : Int) :
    (pySliceGet ba a b).length =
      max (pyNormIdx a ba.length) (pyNormIdx b ba.length) -
        pyNormIdx a ba.length := by
  unfold pySliceGet
  rw [List.length_drop, List.length_take]
  have ha := pyNormIdx_le a ba.length
  have hb := pyNormIdx_le b ba.length
  omega

/-- Length of a Python slice assignment. -/
lemma length_pySliceAssign (ba v : List Nat) (a b : Int) :
    (pySliceAssign ba a b v).length =
      pyNormIdx a ba.length + v.length +
        (ba.length - max (pyNormIdx a ba.length) (pyNormIdx b ba.length)) := by
  unfold pySliceAssign
  simp only [List.length_append, List.length_take, List.length_drop]
  have ha := pyNormIdx_le a ba.length
  have hb := pyNormIdx_le b ba.length
  omega

/-- A slice assignment whose payload has the same length as the replaced
slice preserves the total length. -/
lemma pySliceAssign_length_eq (ba v : List Nat) (a b : Int)
    (h : v.length = (pySliceGet ba a b).length) :
    (pySliceAssign ba a b v).length = ba.length := by
  rw [length_pySliceAssign, h, length_pySliceGet]
  have ha := pyNormIdx_le a ba.length
  have hb := pyNormIdx_le b ba.length
  omega

/-- Bytes strictly before the replaced range are untouched. -/
lemma getElem?_pySliceAssign_left (ba v : List Nat) (a b : Int) (i : Nat)
    (hi : i < pyNormIdx a ba.length) :
    (pySliceAssign ba a b v)[i]? = ba[i]? := by
  have ha := pyNormIdx_le a ba.length
  unfold pySliceAssign
  rw [List.append_assoc,
    List.getElem?_append_left (by rw [List.length_take]; omega),
    List.getElem?_take_of_lt hi]

/-- With a length-matching payload, bytes at or beyond the end of the
written range are untouched. -/
lemma getElem?_pySliceAssign_right (ba v : List Nat) (a b : Int) (i : Nat)
    (h : v.length = (pySliceGet ba a b).length)
    (hi : pyNormIdx a ba.length + v.length ≤ i) :
    (pySliceAssign ba a b v)[i]? = ba[i]? := by
  have ha := pyNormIdx_le a ba.length
  have hb := pyNormIdx_le b ba.length
  have hmax : max (pyNormIdx a ba.length) (pyNormIdx b ba.length) =
      pyNormIdx a ba.length + v.length := by
    rw [h, length_pySliceGet]
    omega
  unfold pySliceAssign
  rw [List.append_assoc,
    List.getElem?_append_right (by rw [List.length_take]; omega),
    List.getElem?_append_right (by rw [List.length_take]; omega),
    List.getElem?_drop]
  congr 1
  rw [List.length_take]
  omega

/-- An in-bounds fixed-width write: length preserved and all bytes
outside the written span untouched. -/
lemma write_span_pres (ba v : List Nat) (a : Int) (h0 : 0 ≤ a)
    (hb : a + (v.length : Int) ≤ (ba.length : Int)) :
    (pySliceAssign ba a (a + (v.length : Int)) v).length = ba.length ∧
    ∀ i : Nat,
      (i < pyNormIdx a ba.length ∨ pyNormIdx a ba.length + v.length ≤ i) →
      (pySliceAssign ba a (a + (v.length : Int)) v)[i]? = ba[i]? := by
  have hv : v.length = (pySliceGet ba a (a + (v.length : Int))).length := by
    rw [length_pySliceGet]
    have h1 : (pyNormIdx a ba.length : Int) = a :=
      pyNormIdx_eq a ba.length h0 (by omega)
    have h2 : (pyNormIdx (a + (v.length : Int)) ba.length : Int) =
        a + (v.length : Int) :=
      pyNormIdx_eq _ _ (by omega) (by omega)
    omega
  exact ⟨pySliceAssign_length_eq ba v _ _ hv,
    fun i hi => hi.elim (getElem?_pySliceAssign_left ba v _ _ i)
      (getElem?_pySliceAssign_right ba v _ _ i hv)⟩

/-- `findFrom` either fails or returns a hit that fits inside the
window. -/
lemma findFrom_res (hay needle : List Nat) (stop : Nat) :
    ∀ (fuel k0 : Nat), findFrom hay needle stop fuel k0 = -1 ∨
      ∃ k : Nat, findFrom hay needle stop fuel k0 = (k : Int) ∧
        k + needle.length ≤ stop := by
  intro fuel
  induction fuel with
  | zero => intro k0; exact Or.inl rfl
  | succ f ih =>
    intro k0
    unfold findFrom
    by_cases h1 : k0 + needle.length ≤ stop
    · rw [if_pos h1]
      by_cases h2 : matchesAt hay needle k0 = true
      · rw [if_pos h2]; exact Or.inr ⟨k0, rfl, h1⟩
      · rw [if_neg h2]; exact ih (k0 + 1)
    · rw [if_neg h1]; exact Or.inl rfl

/-- A successful `pyFind` is non-negative and its hit fits inside the
buffer. -/
lemma pyFind_bound (hay needle : List Nat) (s e : Int)
    (h : pyFind hay needle s e ≠ -1) :
    0 ≤ pyFind hay needle s e ∧
    pyFind hay needle s e + (needle.length : Int) ≤ (hay.length : Int) := by
  unfold pyFind at h ⊢
  rcases findFrom_res hay needle (pyNormIdx e hay.length) (hay.length + 1)
      (pyNormIdx s hay.length) with h1 | ⟨k, hk, hkb⟩
  · exact absurd h1 h
  · rw [hk]
    have := pyNormIdx_le e hay.length
    constructor
    · omega
    · omega

/-- Every location collected by the repeated-find loop is non-negative
and leaves room for the needle inside the buffer. -/
lemma collectLocs_bound (hay needle : List Nat) (stop : Int) :
    ∀ (fuel : Nat) (fromPos q : Int),
      q ∈ collectLocs hay needle stop fuel fromPos →
      0 ≤ q ∧ q + (needle.length : Int) ≤ (hay.length : Int) := by
  intro fuel
  induction fuel with
  | zero => intro fp q hq; simp [collectLocs] at hq
  | succ f ih =>
    intro fp q hq
    simp only [collectLocs] at hq
    by_cases hk : pyFind hay needle fp stop = -1
    · rw [if_pos hk] at hq; simp at hq
    · rw [if_neg hk] at hq
      rcases List.mem_cons.mp hq with h | h
      · rw [h]; exact pyFind_bound hay needle fp stop hk
      · exact ih _ q h

/-! ### Stage-level preservation lemmas -/

/-- The timestamp stage, when its two write spans are in bounds,
preserves the buffer length and every byte outside its two recorded
spans. -/
lemma tsStage_pres (cfg : EditCfg) (cLoc mLoc : Int) (buf : List Nat)
    (pr : List Nat × List Span)
    (hbnds : cfg.tsChange = true →
      0 ≤ cLoc + creationdate_date_offset_from_property_tag ∧
      cLoc + creationdate_date_offset_from_property_tag
        + (cfg.nowTs.length : Int) ≤ (buf.length : Int) ∧
      0 ≤ mLoc + moddate_date_offset_from_property_tag ∧
      mLoc + moddate_date_offset_from_property_tag
        + (cfg.nowTs.length : Int) ≤ (buf.length : Int))
    (h : tsStage cfg cLoc mLoc buf = some pr) :
    pr.1.length = buf.length ∧
    ∀ i, outsideSpans pr.2 i → pr.1[i]? = buf[i]? := by
  simp only [tsStage] at h
  split at h
  · split at h
    · -- timestamp-change enabled: two writes
      rename_i hdec hts
      injection h with hpair
      obtain ⟨hb1, hb2, hb3, hb4⟩ := hbnds hts
      have w1 := write_span_pres buf cfg.nowTs
        (cLoc + creationdate_date_offset_from_property_tag) hb1 hb2
      have hlen1 : (pySliceAssign buf
          (cLoc + creationdate_date_offset_from_property_tag)
          (cLoc + creationdate_date_offset_from_property_tag
            + (cfg.nowTs.length : Int)) cfg.nowTs).length = buf.length := w1.1
      have w2 := write_span_pres
        (pySliceAssign buf (cLoc + creationdate_date_offset_from_property_tag)
          (cLoc + creationdate_date_offset_from_property_tag
            + (cfg.nowTs.length : Int)) cfg.nowTs)
        cfg.nowTs (mLoc + moddate_date_offset_from_property_tag) hb3
        (by rw [hlen1]; exact hb4)
      rw [← hpair]
      constructor
      · rw [w2.1, w1.1]
      · intro i hout
        have hsp1 := hout _ (List.mem_cons_self _ _)
        have hsp2 := hout _ (List.mem_cons_of_mem _ (List.mem_cons_self _ _))
        rw [w2.2 i hsp2, w1.2 i hsp1]
    · -- timestamp-change disabled: identity
      injection h with hpair
      rw [← hpair]
      exact ⟨rfl, fun i _ => rfl⟩
  · exact Option.noConfusion h

/-- A bound replacement value has the anchor literal's length. -/
lemma opacityRepl_length (cfg : EditCfg) (repl : List Nat)
    (h : opacityRepl cfg = some repl) :
    repl.length = uuid_opacity_object_original_value.length := by
  simp only [opacityRepl] at h
  split_ifs at h <;> injection h with h1 <;> rw [← h1] <;> decide

/-- The opacity write loop preserves length and all bytes outside its
recorded spans, provided every located directive fits in the buffer. -/
lemma opacityLoop_pres (repl : List Nat) :
    ∀ (locs : List Int) (ba : List Nat),
      (∀ loc ∈ locs, 0 ≤ loc ∧
        loc + (repl.length : Int) ≤ (ba.length : Int)) →
      (opacityLoop repl locs ba).1.length = ba.length ∧
      ∀ i, outsideSpans (opacityLoop repl locs ba).2 i →
        (opacityLoop repl locs ba).1[i]? = ba[i]? := by
  intro locs
  induction locs with
  | nil => intro ba _; exact ⟨rfl, fun i _ => rfl⟩
  | cons loc rest ih =>
    intro ba hbnd
    obtain ⟨hl0, hlb⟩ := hbnd loc (List.mem_cons_self loc rest)
    have w := write_span_pres ba repl loc hl0 hlb
    have hrest : ∀ l ∈ rest, 0 ≤ l ∧
        l + (repl.length : Int) ≤
          ((pySliceAssign ba loc (loc + (repl.length : Int)) repl).length : Int) := by
      intro l hl
      have hb := hbnd l (List.mem_cons_of_mem _ hl)
      rw [w.1]
      exact hb
    have ihr := ih (pySliceAssign ba loc (loc + (repl.length : Int)) repl) hrest
    simp only [opacityLoop]
    constructor
    · rw [ihr.1, w.1]
    · intro i hout
      have hsp := hout _ (List.mem_cons_self _ _)
      have hrest' : outsideSpans
          (opacityLoop repl rest
            (pySliceAssign ba loc (loc + (repl.length : Int)) repl)).2 i :=
        fun sp hsp' => hout sp (List.mem_cons_of_mem _ hsp')
      rw [ihr.2 i hrest', w.2 i hsp]

/-- The opacity stage preserves length and all bytes outside its
recorded spans. -/
lemma opacityStage_pres (cfg : EditCfg) (mb : Int) (ba : List Nat)
    (pr : List Nat × List Span)
    (h : opacityStage cfg mb ba = some pr) :
    pr.1.length = ba.length ∧
    ∀ i, outsideSpans pr.2 i → pr.1[i]? = ba[i]? := by
  simp only [opacityStage] at h
  rcases hrepl : opacityRepl cfg with _ | repl
  · rw [hrepl] at h
    have h' : (if (opacityLocsOf mb ba).isEmpty then
        some ((ba, []) : List Nat × List Span) else none) = some pr := h
    by_cases he : (opacityLocsOf mb ba).isEmpty
    · rw [if_pos he] at h'
      injection h' with hpair
      rw [← hpair]
      exact ⟨rfl, fun i _ => rfl⟩
    · rw [if_neg he] at h'
      exact Option.noConfusion h'
  · rw [hrepl] at h
    have h' : some (opacityLoop repl (opacityLocsOf mb ba) ba) = some pr := h
    injection h' with hpair
    have hbnd : ∀ loc ∈ opacityLocsOf mb ba, 0 ≤ loc ∧
        loc + (repl.length : Int) ≤ (ba.length : Int) := by
      intro loc hloc
      have hcb := collectLocs_bound ba uuid_opacity_object_original_value mb
        (ba.length + 1) 0 loc hloc
      rw [opacityRepl_length cfg repl hrepl]
      exact hcb
    have := opacityLoop_pres repl (opacityLocsOf mb ba) ba hbnd
    rw [← hpair]
    exact this

/-- One flate-stream pass preserves the length, and every byte outside
its recorded span (when any) is untouched. -/
lemma processFlateOne_pres (cfg : EditCfg) (ba : List Nat) (off : Int)
    (pr : List Nat × Option Span)
    (h : processFlateOne cfg ba off = some pr) :
    pr.1.length = ba.length ∧
    ∀ i, (∀ sp ∈ pr.2.toList, i < sp.1 ∨ sp.1 + sp.2 ≤ i) →
      pr.1[i]? = ba[i]? := by
  simp only [processFlateOne] at h
  split at h
  · exact Option.noConfusion h
  · rename_i l hl
    split at h
    · exact Option.noConfusion h
    · split at h
      · -- destroy: a length-matching overwrite of the payload span
        injection h with hpair
        have hv : (List.replicate
            (pySliceGet ba (pyFind ba streamMarker off (ba.length : Int) + 9)
              (pyFind ba streamMarker off (ba.length : Int) + 9 + l - 1 + 1)).length
            48).length =
            (pySliceGet ba (pyFind ba streamMarker off (ba.length : Int) + 9)
              (pyFind ba streamMarker off (ba.length : Int) + 9 + l - 1 + 1)).length := by
          rw [List.length_replicate]
        rw [← hpair]
        constructor
        · exact pySliceAssign_length_eq _ _ _ _ hv
        · intro i hout
          have hsp := hout
            (pyNormIdx (pyFind ba streamMarker off (ba.length : Int) + 9) ba.length,
             (pySliceGet ba (pyFind ba streamMarker off (ba.length : Int) + 9)
               (pyFind ba streamMarker off (ba.length : Int) + 9 + l - 1 + 1)).length)
            (by simp [Option.toList])
          refine (hsp.elim
            (fun hlt => getElem?_pySliceAssign_left _ _ _ _ i hlt)
            (fun hge => getElem?_pySliceAssign_right _ _ _ _ i hv ?_))
          rw [List.length_replicate]
          exact hge
      · -- no destroy: identity, no span
        injection h with hpair
        rw [← hpair]
        exact ⟨rfl, fun i _ => rfl⟩

/-- The flate loop preserves length and all bytes outside its recorded
spans. -/
lemma flateLoop_pres (cfg : EditCfg) :
    ∀ (offs : List Int) (ba : List Nat) (pr : List Nat × List Span),
      flateLoop cfg offs ba = some pr →
      pr.1.length = ba.length ∧
      ∀ i, outsideSpans pr.2 i → pr.1[i]? = ba[i]? := by
  intro offs
  induction offs with
  | nil =>
    intro ba pr h
    injection h with hpair
    rw [← hpair]
    exact ⟨rfl, fun i _ => rfl⟩
  | cons off rest ih =>
    intro ba pr h
    simp only [flateLoop] at h
    split at h
    · exact Option.noConfusion h
    · rename_i pr1 hpr1
      split at h
      · exact Option.noConfusion h
      · rename_i res hres
        injection h with hpair
        have h1 := processFlateOne_pres cfg ba off pr1 hpr1
        have h2 := ih pr1.1 res hres
        rw [← hpair]
        constructor
        · rw [h2.1, h1.1]
        · intro i hout
          have hout1 : ∀ sp ∈ pr1.2.toList, i < sp.1 ∨ sp.1 + sp.2 ≤ i :=
            fun sp hsp => hout sp (List.mem_append_left _ hsp)
          have hout2 : outsideSpans res.2 i :=
            fun sp hsp => hout sp (List.mem_append_right _ hsp)
          rw [h2.2 i hout2, h1.2 i hout1]

/-- The flate stage preserves length and all bytes outside its recorded
spans. -/
lemma flateStage_pres (cfg : EditCfg) (mb itc : Int) (ba : List Nat)
    (pr : List Nat × List Span)
    (h : flateStage cfg mb itc ba = some pr) :
    pr.1.length = ba.length ∧
    ∀ i, outsideSpans pr.2 i → pr.1[i]? = ba[i]? :=
  flateLoop_pres cfg _ ba pr h

/-! ### C1: the amended length-preservation theorem -/

set_option maxHeartbeats 1000000 in
/-- C1 (amended): for any fetched buffer and any option combination,
provided that, when the timestamp-rewrite option is enabled, both
timestamp tags were actually located with their value spans inside the
buffer, every completed run of the post-processor preserves the total
byte length, and every byte outside the recorded edit spans is
identical to the original. -/
theorem C1_length_preservation (cfg : EditCfg) (buf : List Nat)
    (pr : List Nat × List Span)
    (hts : cfg.tsChange = true → TsAnchorsOk cfg buf)
    (h : postProcessSpans cfg buf = some pr) :
    pr.1.length = buf.length ∧
    ∀ i, outsideSpans pr.2 i → pr.1[i]? = buf[i]? := by
  unfold postProcessSpans at h
  rcases Option.bind_eq_some.mp h with ⟨pr1, hpr1, h2⟩
  rcases Option.bind_eq_some.mp h2 with ⟨pr2, hpr2, h3⟩
  rcases Option.map_eq_some'.mp h3 with ⟨pr3, hpr3, hpair⟩
  have hbnds : cfg.tsChange = true →
      0 ≤ cLocOf buf + creationdate_date_offset_from_property_tag ∧
      cLocOf buf + creationdate_date_offset_from_property_tag
        + (cfg.nowTs.length : Int) ≤ (buf.length : Int) ∧
      0 ≤ mLocOf buf + moddate_date_offset_from_property_tag ∧
      mLocOf buf + moddate_date_offset_from_property_tag
        + (cfg.nowTs.length : Int) ≤ (buf.length : Int) := by
    intro htc
    obtain ⟨hc, hm, hcs, hms⟩ := hts htc
    have hcge : 0 ≤ cLocOf buf := by
      unfold cLocOf at hc ⊢
      split at hc
      · exact absurd rfl hc
      · split
        · omega
        · exact (pyFind_bound _ _ _ _ hc).1
    have hmge : 0 ≤ mLocOf buf := by
      unfold mLocOf at hm ⊢
      split at hm
      · exact absurd rfl hm
      · split
        · omega
        · exact (pyFind_bound _ _ _ _ hm).1
    refine ⟨?_, hcs, ?_, hms⟩
    · unfold creationdate_date_offset_from_property_tag; omega
    · unfold moddate_date_offset_from_property_tag; omega
  have t1 := tsStage_pres cfg (cLocOf buf) (mLocOf buf) buf pr1 hbnds hpr1
  have t2 := opacityStage_pres cfg (mbOf buf) pr1.1 pr2 hpr2
  have t3 := flateStage_pres cfg (mbOf buf) (itcOf buf) pr2.1 pr3 hpr3
  rw [← hpair]
  constructor
  · rw [t3.1, t2.1, t1.1]
  · intro i hout
    have ho1 : outsideSpans pr1.2 i :=
      fun sp hsp => hout sp (List.mem_append_left _ (List.mem_append_left _ hsp))
    have ho2 : outsideSpans pr2.2 i :=
      fun sp hsp => hout sp (List.mem_append_left _ (List.mem_append_right _ hsp))
    have ho3 : outsideSpans pr3.2 i :=
      fun sp hsp => hout sp (List.mem_append_right _ hsp)
    rw [t3.2 i ho3, t2.2 i ho2, t1.2 i ho1]

/-- C1 witness: the hide option on the 20-byte opacity fixture; the
single recorded span is `(0, 19)` and the trailing byte is untouched. -/
theorem C1_length_preservation_witness :
    postProcessSpans cfgHideOnly bufOpacity =
      some (uuid_opacity_hide_value ++ [90], [(0, 19)]) ∧
    (uuid_opacity_hide_value ++ [90]).length = bufOpacity.length :=
  ⟨by decide,
   (C1_length_preservation cfgHideOnly bufOpacity
     (uuid_opacity_hide_value ++ [90], [(0, 19)])
     (fun htc => absurd htc (by decide)) (by decide)).1⟩

/-! ### C3: the amended destroy-mode theorem -/

/-- C3 (amended): in destroy mode, each located stream's compressed
payload span — whose length is derived from the declared `<</Length`
value, clamped to the buffer end, not from the decompressed payload —
is overwritten with exactly that many ASCII `'0'` bytes; the total
length is preserved and every byte before the span start (the
`<</Length` marker included) and after the span end is unchanged. -/
theorem C3_destroy_zeroing (cfg : EditCfg) (ba : List Nat) (off : Int)
    (out : List Nat) (sp l : Nat)
    (hd : cfg.destroy = true)
    (h : processFlateOne cfg ba off = some (out, some (sp, l))) :
    sp + l ≤ ba.length ∧
    out = ba.take sp ++ List.replicate l 48 ++ ba.drop (sp + l) ∧
    out.length = ba.length := by
  have hp := processFlateOne_pres cfg ba off (out, some (sp, l)) h
  simp only [processFlateOne] at h
  split at h
  · exact Option.noConfusion h
  · rename_i lint hl
    split at h
    · exact Option.noConfusion h
    · rw [if_pos hd] at h
      injection h with hpair
      have hfst : pySliceAssign ba
          (pyFind ba streamMarker off (ba.length : Int) + 9)
          (pyFind ba streamMarker off (ba.length : Int) + 9 + lint - 1 + 1)
          (List.replicate
            (pySliceGet ba (pyFind ba streamMarker off (ba.length : Int) + 9)
              (pyFind ba streamMarker off (ba.length : Int) + 9 + lint - 1 + 1)).length
            48) = out := congrArg Prod.fst hpair
      have hsnd : (some (pyNormIdx
          (pyFind ba streamMarker off (ba.length : Int) + 9) ba.length,
          (pySliceGet ba (pyFind ba streamMarker off (ba.length : Int) + 9)
            (pyFind ba streamMarker off (ba.length : Int) + 9 + lint - 1 + 1)).length) :
          Option Span) = some (sp, l) := congrArg Prod.snd hpair
      injection hsnd with hsnd
      have hsp : pyNormIdx
          (pyFind ba streamMarker off (ba.length : Int) + 9) ba.length = sp :=
        congrArg Prod.fst hsnd
      have hll : (pySliceGet ba
          (pyFind ba streamMarker off (ba.length : Int) + 9)
          (pyFind ba streamMarker off (ba.length : Int) + 9 + lint - 1 + 1)).length = l :=
        congrArg Prod.snd hsnd
      have hmax : max (pyNormIdx
            (pyFind ba streamMarker off (ba.length : Int) + 9) ba.length)
          (pyNormIdx
            (pyFind ba streamMarker off (ba.length : Int) + 9 + lint - 1 + 1)
            ba.length) = sp + l := by
        have := length_pySliceGet ba
          (pyFind ba streamMarker off (ba.length : Int) + 9)
          (pyFind ba streamMarker off (ba.length : Int) + 9 + lint - 1 + 1)
        rw [hll, hsp] at this
        have h1 := pyNormIdx_le
          (pyFind ba streamMarker off (ba.length : Int) + 9) ba.length
        have h2 := pyNormIdx_le
          (pyFind ba streamMarker off (ba.length : Int) + 9 + lint - 1 + 1)
          ba.length
        omega
      refine ⟨?_, ?_, ?_⟩
      · have h2 := pyNormIdx_le
          (pyFind ba streamMarker off (ba.length : Int) + 9 + lint - 1 + 1)
          ba.length
        have h1 := pyNormIdx_le
          (pyFind ba streamMarker off (ba.length : Int) + 9) ba.length
        omega
      · rw [← hfst]
        simp only [pySliceAssign]
        rw [hmax, hsp, hll]
      · rw [← hpair] at hp
        rw [← hfst]
        exact hp.1

/-- C3 witness: the concrete flate fixture with declared length 5. -/
theorem C3_destroy_zeroing_witness :
    processFlateOne cfgDestroy12 bufFlate 22 =
      some (bufFlateZeroed, some (61, 5)) ∧
    bufFlateZeroed = bufFlate.take 61 ++ List.replicate 5 48 ++ bufFlate.drop 66 :=
  ⟨by decide,
   (C3_destroy_zeroing cfgDestroy12 bufFlate 22 bufFlateZeroed 61 5 rfl
     (by decide)).2.1⟩

end Pocketmags
